import Mathlib

/-!
Verification of the two scripts of this repository (a price-snapshot tool
and an RSI report tool) against their specification.

The embedding models:
  * `calculate_rsi` — the pandas RSI pipeline of `src/04.py` over exact
    rationals (Python floats are modelled as ℚ; pandas `NaN` entries are
    modelled as `none` in `Option ℚ` series);
  * `get_historical_prices` — the three-tier acquisition chain of
    `src/04.py`, with the outcomes of the network calls and of the random
    perturbation draws passed in as explicit parameters;
  * `get_all_rsi` / the report loop of `src/04.py`'s `main`;
  * the per-cycle output of `src/03.py`'s `main`.
-/

/-- A row of the price DataFrame: one `(timestamp, price)` sample.
Timestamps are modelled in seconds (Python `datetime` differences are
compared in seconds). -/
structure Sample where
  timestamp : ℚ
  price : ℚ
deriving DecidableEq, Repr

/-- The price DataFrame handed to `calculate_rsi`: a list of rows. -/
abbrev DataFrame := List Sample

/-- Model of `df.sort_values("timestamp")`: sort the rows by timestamp.
(Insertion sort; on the timestamp-distinct inputs of the claims any
correct sort agrees.) -/
def sortByTs (df : DataFrame) : DataFrame :=
  List.insertionSort (fun a b => a.timestamp ≤ b.timestamp) df

/-- Helper for `pyDiff`: successive differences given the previous value. -/
def pyDiffAux : ℚ → List ℚ → List (Option ℚ)
  | _, [] => []
  | prev, x :: xs => some (x - prev) :: pyDiffAux x xs

/-- Model of `Series.diff()`: first entry is `NaN` (`none`), entry `i` is
`x i - x (i-1)`. -/
def pyDiff : List ℚ → List (Option ℚ)
  | [] => []
  | x :: xs => none :: pyDiffAux x xs

/-- Model of `delta.where(delta > 0, 0)`: keep positive deltas, everything else
(including the leading `NaN`, for which the comparison is false) becomes 0. -/
def gainOf (d : Option ℚ) : ℚ :=
  match d with
  | some x => if 0 < x then x else 0
  | none => 0

/-- Model of `(-delta.where(delta < 0, 0))`: absolute value of negative deltas,
everything else (including the leading `NaN`) becomes 0. -/
def lossOf (d : Option ℚ) : ℚ :=
  match d with
  | some x => if x < 0 then -x else 0
  | none => 0

/-- Model of `Series.rolling(window=w).mean()`: entry `i` is `NaN` while fewer than
`w` observations are available, afterwards the mean of entries
`i-w+1 .. i`. -/
def rollingMean (w : ℕ) (xs : List ℚ) : List (Option ℚ) :=
  (List.range xs.length).map (fun i =>
    if i + 1 < w then none
    else some ((((xs.drop (i + 1 - w)).take w).sum) / (w : ℚ)))

/-- Model of `loss.replace(0, np.nan)` applied entrywise. -/
def lossReplace (x : Option ℚ) : Option ℚ :=
  match x with
  | some v => if v = 0 then none else some v
  | none => none

/-- One entry of `gain / loss.replace(0, np.nan)`: pandas division is `NaN`
as soon as either operand is `NaN`. -/
def rsRaw (g l : Option ℚ) : Option ℚ :=
  match g, lossReplace l with
  | some a, some b => some (a / b)
  | _, _ => none

/-- Model of the formula `100 - (100 / (1 + rs))`. -/
def rsiOf (r : ℚ) : ℚ := 100 - 100 / (1 + r)

/-- The RSI series computed by `calculate_rsi` from the (already sorted)
price column: diff, gains/losses, rolling means, `rs` with the
divide-by-zero fallback `rs.fillna(0)`, then the RSI formula. -/
def rsiSeries (p : List ℚ) (period : ℕ) : List ℚ :=
  let delta := pyDiff p
  let gain := rollingMean period (delta.map gainOf)
  let loss := rollingMean period (delta.map lossOf)
  let rs := (List.zipWith rsRaw gain loss).map (fun x => x.getD 0)
  rs.map rsiOf

/-- Python3 `round` ties-to-even rounding of a rational to an integer. -/
def roundHalfEven (x : ℚ) : ℤ :=
  let n := ⌊x⌋
  let frac := x - (n : ℚ)
  if frac < 1/2 then n
  else if 1/2 < frac then n + 1
  else if n % 2 = 0 then n else n + 1

/-- Model of `round(x, 2)`: round to 2 decimal places. -/
def pyRound2 (x : ℚ) : ℚ := ((roundHalfEven (x * 100) : ℤ) : ℚ) / 100

/-- The tail of `calculate_rsi` after the sort: take the price column, run
the RSI pipeline, and return the last value rounded to 2 decimals when the
series is nonempty and its last entry is a number (after `fillna(0)` no
entry is `NaN`, so only emptiness can yield `None` here). -/
def rsiFromSorted (df : DataFrame) (period : ℕ) : Option ℚ :=
  match (rsiSeries (df.map (·.price)) period).getLast? with
  | some v => some (pyRound2 v)
  | none => none

/-- Model of `calculate_rsi(df, period)` of `src/04.py`: `None` when the frame has
fewer than `period + 1` rows, otherwise the pipeline on a sorted copy. -/
def calculate_rsi (df : DataFrame) (period : ℕ) : Option ℚ :=
  if df.length < period + 1 then none
  else rsiFromSorted (sortByTs df) period

/-- Sum of the trailing window of length `w` of a series. -/
def windowSum (w : ℕ) (xs : List ℚ) : ℚ := (xs.drop (xs.length - w)).sum

/-- The gain column of `calculate_rsi` on frame `df` (after the sort). -/
def gainsList (df : DataFrame) : List ℚ :=
  (pyDiff ((sortByTs df).map (·.price))).map gainOf

/-- The loss column of `calculate_rsi` on frame `df` (after the sort). -/
def lossesList (df : DataFrame) : List ℚ :=
  (pyDiff ((sortByTs df).map (·.price))).map lossOf

/-- The trailing average gain at the most recent point of the frame. -/
def avgGainLast (df : DataFrame) (period : ℕ) : ℚ :=
  windowSum period (gainsList df) / (period : ℚ)

/-- The trailing average loss at the most recent point of the frame. -/
def avgLossLast (df : DataFrame) (period : ℕ) : ℚ :=
  windowSum period (lossesList df) / (period : ℚ)

/-- The (unrounded) RSI at the most recent point, with the source's
divide-by-zero fallback: relative strength is 0 when the average loss is 0. -/
def rsiLast (df : DataFrame) (period : ℕ) : ℚ :=
  rsiOf (if avgLossLast df period = 0 then 0
         else avgGainLast df period / avgLossLast df period)

theorem pyDiffAux_length (prev : ℚ) (xs : List ℚ) :
    (pyDiffAux prev xs).length = xs.length := by
  induction xs generalizing prev with
  | nil => rfl
  | cons x xs ih => simp [pyDiffAux, ih]

theorem pyDiff_length (xs : List ℚ) : (pyDiff xs).length = xs.length := by
  cases xs with
  | nil => rfl
  | cons x xs => simp [pyDiff, pyDiffAux_length]

theorem rollingMean_length (w : ℕ) (xs : List ℚ) :
    (rollingMean w xs).length = xs.length := by
  simp [rollingMean]

theorem sortByTs_length (df : DataFrame) : (sortByTs df).length = df.length :=
  List.length_insertionSort _ _

theorem getD_rsRaw (gv lv : ℚ) :
    (rsRaw (some gv) (some lv)).getD 0 = if lv = 0 then 0 else gv / lv := by
  by_cases h : lv = 0 <;> simp [rsRaw, lossReplace, h]

theorem rollingMean_getElem_last (w : ℕ) (xs : List ℚ) (hw : 1 ≤ w)
    (hlen : w ≤ xs.length) :
    (rollingMean w xs)[xs.length - 1]? =
      some (some (windowSum w xs / (w : ℚ))) := by
  have h1 : xs.length - 1 < xs.length := by omega
  unfold rollingMean
  rw [List.getElem?_map, List.getElem?_range h1]
  have h2 : ¬ (xs.length - 1 + 1 < w) := by omega
  have h3 : xs.length - 1 + 1 - w = xs.length - w := by omega
  have h4 : (xs.drop (xs.length - w)).length ≤ w := by
    rw [List.length_drop]; omega
  simp only [Option.map_some', if_neg h2, h3, List.take_of_length_le h4, windowSum]

theorem rsiSeries_getLast (p : List ℚ) (w : ℕ) (hw : 1 ≤ w)
    (hlen : w + 1 ≤ p.length) :
    (rsiSeries p w).getLast? =
      some (rsiOf
        (if windowSum w ((pyDiff p).map lossOf) / (w : ℚ) = 0 then 0
         else (windowSum w ((pyDiff p).map gainOf) / (w : ℚ)) /
              (windowSum w ((pyDiff p).map lossOf) / (w : ℚ)))) := by
  have hg : ((pyDiff p).map gainOf).length = p.length := by
    simp [pyDiff_length]
  have hl : ((pyDiff p).map lossOf).length = p.length := by
    simp [pyDiff_length]
  have hR : (rsiSeries p w).length = p.length := by
    simp [rsiSeries, rollingMean_length, List.length_zipWith, hg, hl]
  rw [List.getLast?_eq_getElem?, hR]
  unfold rsiSeries
  simp only
  rw [List.getElem?_map, List.getElem?_map, List.getElem?_zipWith]
  have hgl : (rollingMean w ((pyDiff p).map gainOf))[p.length - 1]? =
      some (some (windowSum w ((pyDiff p).map gainOf) / (w : ℚ))) := by
    have := rollingMean_getElem_last w ((pyDiff p).map gainOf) hw (by omega)
    rwa [hg] at this
  have hll : (rollingMean w ((pyDiff p).map lossOf))[p.length - 1]? =
      some (some (windowSum w ((pyDiff p).map lossOf) / (w : ℚ))) := by
    have := rollingMean_getElem_last w ((pyDiff p).map lossOf) hw (by omega)
    rwa [hl] at this
  rw [hgl, hll]
  simp only [Option.map_some', getD_rsRaw]

/-- Bridging lemma: on a frame long enough for the rolling window,
`calculate_rsi` returns the RSI at the most recent point, computed with the
trailing average gain/loss and the zero-loss fallback, rounded to two
decimal places. -/
theorem calculate_rsi_eq (df : DataFrame) (period : ℕ)
    (hp : 1 ≤ period) (hl : period + 1 ≤ df.length) :
    calculate_rsi df period = some (pyRound2 (rsiLast df period)) := by
  have hlen : ¬ df.length < period + 1 := by omega
  have hplen : ((sortByTs df).map (·.price)).length = df.length := by
    simp [sortByTs_length]
  unfold calculate_rsi
  rw [if_neg hlen]
  unfold rsiFromSorted
  rw [rsiSeries_getLast _ _ hp (by omega)]
  rfl

theorem rsi_zero_of_avgLoss_zero (df : DataFrame) (period : ℕ)
    (hp : 1 ≤ period) (hl : period + 1 ≤ df.length)
    (hz : avgLossLast df period = 0) :
    calculate_rsi df period = some 0 := by
  rw [calculate_rsi_eq df period hp hl]
  unfold rsiLast
  rw [if_pos hz]
  norm_num [rsiOf, pyRound2, roundHalfEven]

theorem rsi_zero_of_avgGain_zero (df : DataFrame) (period : ℕ)
    (hp : 1 ≤ period) (hl : period + 1 ≤ df.length)
    (hg : avgGainLast df period = 0) :
    calculate_rsi df period = some 0 := by
  rw [calculate_rsi_eq df period hp hl]
  unfold rsiLast
  rcases eq_or_ne (avgLossLast df period) 0 with h | h
  · rw [if_pos h]; norm_num [rsiOf, pyRound2, roundHalfEven]
  · rw [if_neg h, hg, zero_div]; norm_num [rsiOf, pyRound2, roundHalfEven]

/-- C1: whenever the series is long enough and the trailing average loss at
the most recent point is exactly zero, `calculate_rsi` applies the
divide-by-zero fallback (`rs = 0`) and returns RSI 0 rather than the
textbook value 100. -/
theorem c1_zero_avg_loss_yields_rsi_zero (df : DataFrame) (period : ℕ)
    (hp : 1 ≤ period) (hl : period + 1 ≤ df.length)
    (hz : avgLossLast df period = 0) :
    calculate_rsi df period = some 0 :=
  rsi_zero_of_avgLoss_zero df period hp hl hz

/-- Witness for C1 at a concrete strictly rising series with zero losses. -/
theorem c1_zero_avg_loss_yields_rsi_zero_witness :
    avgLossLast [⟨0, 1⟩, ⟨1, 2⟩, ⟨2, 3⟩, ⟨3, 4⟩] 3 = 0 ∧
    calculate_rsi [⟨0, 1⟩, ⟨1, 2⟩, ⟨2, 3⟩, ⟨3, 4⟩] 3 = some 0 := by
  have hz : avgLossLast [⟨0, 1⟩, ⟨1, 2⟩, ⟨2, 3⟩, ⟨3, 4⟩] 3 = 0 := by
    norm_num [avgLossLast, lossesList, windowSum, sortByTs, List.insertionSort,
      List.orderedInsert, pyDiff, pyDiffAux, lossOf]
  exact ⟨hz, c1_zero_avg_loss_yields_rsi_zero _ 3 (by norm_num) (by norm_num) hz⟩

/-- A strictly increasing price series with constant step `s` and
minute-indexed timestamps. -/
def arithUpSeries (a s : ℚ) (n : ℕ) : DataFrame :=
  (List.range n).map (fun i : ℕ => ⟨(i : ℚ), a + (i : ℚ) * s⟩)

/-- A strictly decreasing price series with constant step `s` and
minute-indexed timestamps. -/
def arithDownSeries (b s : ℚ) (n : ℕ) : DataFrame :=
  (List.range n).map (fun i : ℕ => ⟨(i : ℚ), b - (i : ℚ) * s⟩)

theorem arith_sorted (f : ℕ → ℚ) (n : ℕ) :
    sortByTs ((List.range n).map (fun i : ℕ => ⟨(i : ℚ), f i⟩)) =
      (List.range n).map (fun i : ℕ => ⟨(i : ℚ), f i⟩) := by
  apply List.Sorted.insertionSort_eq
  rw [List.Sorted, List.pairwise_map]
  apply (List.pairwise_lt_range n).imp
  intro a b hab
  simpa using (le_of_lt (by exact_mod_cast hab : (a : ℚ) < b))

theorem pyDiffAux_mapRange (g : ℕ → ℚ) (d : ℚ) (hg : ∀ j, g (j + 1) - g j = d) :
    ∀ (m k : ℕ), pyDiffAux (g k) ((List.range' (k + 1) m).map g) =
      List.replicate m (some d) := by
  intro m
  induction m with
  | zero => intro k; rfl
  | succ m ih =>
      intro k
      rw [List.range'_succ, List.map_cons]
      show some (g (k + 1) - g k) :: pyDiffAux (g (k + 1)) _ = _
      rw [hg k, ih (k + 1), List.replicate_succ]

theorem pyDiff_mapRange (g : ℕ → ℚ) (d : ℚ) (hg : ∀ j, g (j + 1) - g j = d)
    (n : ℕ) :
    pyDiff ((List.range (n + 1)).map g) = none :: List.replicate n (some d) := by
  rw [List.range_eq_range', List.range'_succ, List.map_cons]
  show none :: pyDiffAux (g 0) _ = _
  rw [pyDiffAux_mapRange g d hg n 0]

theorem gainsList_arith (f : ℕ → ℚ) (d : ℚ) (hf : ∀ j, f (j + 1) - f j = d)
    (m : ℕ) :
    gainsList ((List.range (m + 1)).map (fun i : ℕ => ⟨(i : ℚ), f i⟩)) =
      0 :: List.replicate m (gainOf (some d)) := by
  unfold gainsList
  rw [arith_sorted, List.map_map]
  have hcomp : ((fun x : Sample => x.price) ∘ fun i : ℕ => (⟨(i : ℚ), f i⟩ : Sample)) = f :=
    rfl
  rw [hcomp, pyDiff_mapRange f d hf m, List.map_cons, List.map_replicate]
  rfl

theorem lossesList_arith (f : ℕ → ℚ) (d : ℚ) (hf : ∀ j, f (j + 1) - f j = d)
    (m : ℕ) :
    lossesList ((List.range (m + 1)).map (fun i : ℕ => ⟨(i : ℚ), f i⟩)) =
      0 :: List.replicate m (lossOf (some d)) := by
  unfold lossesList
  rw [arith_sorted, List.map_map]
  have hcomp : ((fun x : Sample => x.price) ∘ fun i : ℕ => (⟨(i : ℚ), f i⟩ : Sample)) = f :=
    rfl
  rw [hcomp, pyDiff_mapRange f d hf m, List.map_cons, List.map_replicate]
  rfl

theorem windowSum_cons_replicate (c : ℚ) (n w : ℕ) (hw : w ≤ n) :
    windowSum w (0 :: List.replicate n c) = (w : ℚ) * c := by
  unfold windowSum
  have hlen : (0 :: List.replicate n c : List ℚ).length = n + 1 := by simp
  rw [hlen]
  have h1 : n + 1 - w = (n - w) + 1 := by omega
  rw [h1, List.drop_succ_cons, List.drop_replicate, List.sum_replicate]
  have h2 : n - (n - w) = w := by omega
  rw [h2, nsmul_eq_mul]

/-- C2 (counterexample): for the strictly increasing series 1,2,3,4 and the
strictly decreasing series 4,3,2,1 (equal length 4 = period + 1, equal step
1), both RSIs are 0, so the increasing one is not strictly greater. -/
theorem c2_counterexample :
    calculate_rsi [⟨0, 1⟩, ⟨1, 2⟩, ⟨2, 3⟩, ⟨3, 4⟩] 3 = some 0 ∧
    calculate_rsi [⟨0, 4⟩, ⟨1, 3⟩, ⟨2, 2⟩, ⟨3, 1⟩] 3 = some 0 ∧
    ¬ ∃ x y : ℚ, calculate_rsi [⟨0, 1⟩, ⟨1, 2⟩, ⟨2, 3⟩, ⟨3, 4⟩] 3 = some x ∧
        calculate_rsi [⟨0, 4⟩, ⟨1, 3⟩, ⟨2, 2⟩, ⟨3, 1⟩] 3 = some y ∧ y < x := by
  have h1 : calculate_rsi [⟨0, 1⟩, ⟨1, 2⟩, ⟨2, 3⟩, ⟨3, 4⟩] 3 = some 0 := by
    norm_num [calculate_rsi, rsiFromSorted, rsiSeries, sortByTs, List.insertionSort,
      List.orderedInsert, pyDiff, pyDiffAux, rollingMean, List.range_succ, gainOf, lossOf,
      rsRaw, lossReplace, rsiOf, pyRound2, roundHalfEven]
  have h2 : calculate_rsi [⟨0, 4⟩, ⟨1, 3⟩, ⟨2, 2⟩, ⟨3, 1⟩] 3 = some 0 := by
    norm_num [calculate_rsi, rsiFromSorted, rsiSeries, sortByTs, List.insertionSort,
      List.orderedInsert, pyDiff, pyDiffAux, rollingMean, List.range_succ, gainOf, lossOf,
      rsRaw, lossReplace, rsiOf, pyRound2, roundHalfEven]
  refine ⟨h1, h2, ?_⟩
  rintro ⟨x, y, hx, hy, hxy⟩
  rw [h1] at hx
  rw [h2] at hy
  have hx0 : x = 0 := by exact_mod_cast (Option.some.inj hx).symm
  have hy0 : y = 0 := by exact_mod_cast (Option.some.inj hy).symm
  rw [hx0, hy0] at hxy
  exact lt_irrefl 0 hxy

/-- C2 (amended): for every strictly increasing and strictly decreasing
arithmetic price series of equal length `n ≥ period + 1` and equal positive
step `s`, both RSIs are 0 — equal, not strictly ordered: the zero-loss
fallback drives the rising series to 0 and the zero average gain drives the
falling series to 0. -/
theorem c2_amended_both_rsi_zero (a b s : ℚ) (n period : ℕ)
    (hs : 0 < s) (hp : 1 ≤ period) (hn : period + 1 ≤ n) :
    calculate_rsi (arithUpSeries a s n) period = some 0 ∧
    calculate_rsi (arithDownSeries b s n) period = some 0 := by
  obtain ⟨m, rfl⟩ : ∃ m, n = m + 1 := ⟨n - 1, by omega⟩
  have hpm : period ≤ m := by omega
  have hlenUp : (arithUpSeries a s (m + 1)).length = m + 1 := by
    simp [arithUpSeries]
  have hlenDown : (arithDownSeries b s (m + 1)).length = m + 1 := by
    simp [arithDownSeries]
  have hper : ((period : ℚ)) ≠ 0 := by
    exact_mod_cast (by omega : 0 < period).ne'
  constructor
  · apply rsi_zero_of_avgLoss_zero _ _ hp (by omega)
    unfold avgLossLast
    unfold arithUpSeries
    rw [lossesList_arith (fun i => a + (i : ℚ) * s) s
      (by intro j; push_cast; ring) m]
    have hL : lossOf (some s) = 0 := by
      simp [lossOf, not_lt.mpr hs.le]
    rw [hL, windowSum_cons_replicate 0 m period hpm, mul_zero, zero_div]
  · apply rsi_zero_of_avgGain_zero _ _ hp (by omega)
    unfold avgGainLast
    unfold arithDownSeries
    rw [gainsList_arith (fun i => b - (i : ℚ) * s) (-s)
      (by intro j; push_cast; ring) m]
    have hG : gainOf (some (-s)) = 0 := by
      simp [gainOf, not_lt.mpr (neg_nonpos.mpr hs.le)]
    rw [hG, windowSum_cons_replicate 0 m period hpm, mul_zero, zero_div]

/-- Witness for the amended C2 at the series of `c2_counterexample`. -/
theorem c2_amended_both_rsi_zero_witness :
    calculate_rsi (arithUpSeries 1 1 4) 3 = some 0 ∧
    calculate_rsi (arithDownSeries 4 1 4) 3 = some 0 :=
  c2_amended_both_rsi_zero 1 4 1 4 3 (by norm_num) (by norm_num) (by norm_num)

/-- C4: `calculate_rsi` returns `None` exactly when the frame has fewer than
`period + 1` rows (over exact rationals the latest RSI is always a number:
`rs.fillna(0)` removes every `NaN`, so the is-not-a-number branch of the
return check is unreachable); otherwise it returns the most recent RSI
rounded to 2 decimal places. -/
theorem c4_return_contract (df : DataFrame) (period : ℕ) (hp : 1 ≤ period) :
    (calculate_rsi df period = none ↔ df.length < period + 1) ∧
    (period + 1 ≤ df.length →
      calculate_rsi df period = some (pyRound2 (rsiLast df period))) := by
  constructor
  · constructor
    · intro h
      by_contra hlen
      rw [calculate_rsi_eq df period hp (by omega)] at h
      exact Option.noConfusion h
    · intro h
      unfold calculate_rsi
      rw [if_pos h]
  · intro h
    exact calculate_rsi_eq df period hp h

/-- Witness for C4: a 2-row frame yields `None`; a 4-row frame yields the
rounded most-recent RSI. -/
theorem c4_return_contract_witness :
    calculate_rsi [⟨0, 5⟩, ⟨1, 6⟩] 3 = none ∧
    calculate_rsi [⟨0, 1⟩, ⟨1, 3⟩, ⟨2, 2⟩, ⟨3, 4⟩] 3 =
      some (pyRound2 (rsiLast [⟨0, 1⟩, ⟨1, 3⟩, ⟨2, 2⟩, ⟨3, 4⟩] 3)) :=
  ⟨(c4_return_contract [⟨0, 5⟩, ⟨1, 6⟩] 3 (by norm_num)).1.mpr (by simp),
   (c4_return_contract _ 3 (by norm_num)).2 (by simp)⟩

/-- Python `int(x)`: truncation toward zero. -/
def pyInt (q : ℚ) : ℤ := if 0 ≤ q then ⌊q⌋ else ⌈q⌉

/-- The report line built by `get_all_rsi` of `src/04.py`: start from
`"rsi"`, append a `brsi` clause when the BTC RSI is present, then an `ersi`
clause when the ETH RSI is present, each value truncated by `int()`. -/
def get_all_rsi_line (btc eth : Option ℚ) : String :=
  let r0 := "rsi"
  let r1 := match btc with
    | some v => r0 ++ " brsi " ++ toString (pyInt v)
    | none => r0
  match eth with
  | some v => r1 ++ " ersi " ++ toString (pyInt v)
  | none => r1

/-- C5: the report line is `"rsi"` followed by a ` brsi <int>` clause iff
the BTC value is present and then an ` ersi <int>` clause iff the ETH value
is present (so `brsi` always precedes `ersi`), values truncated, and on
BTC = 72.345, ETH = 28.9 the line is exactly `rsi brsi 72 ersi 28`. -/
theorem c5_report_format :
    (∀ b e : Option ℚ,
      get_all_rsi_line b e =
        "rsi" ++ (Option.elim b "" (fun v => " brsi " ++ toString (pyInt v)))
              ++ (Option.elim e "" (fun v => " ersi " ++ toString (pyInt v)))) ∧
    get_all_rsi_line (some (72.345 : ℚ)) (some (28.9 : ℚ)) = "rsi brsi 72 ersi 28" := by
  constructor
  · intro b e
    cases b with
    | none =>
      cases e with
      | none =>
        simp only [get_all_rsi_line, Option.elim]
        rw [String.append_empty, String.append_empty]
      | some ve =>
        simp only [get_all_rsi_line, Option.elim]
        rw [String.append_empty]
        exact String.append_assoc _ _ _
    | some vb =>
      cases e with
      | none =>
        simp only [get_all_rsi_line, Option.elim]
        rw [String.append_empty]
        exact String.append_assoc _ _ _
      | some ve =>
        simp only [get_all_rsi_line, Option.elim]
        rw [← String.append_assoc "rsi" " brsi "]
        exact String.append_assoc _ _ _
  · have h1 : pyInt (72.345 : ℚ) = 72 := by norm_num [pyInt]
    have h2 : pyInt (28.9 : ℚ) = 28 := by norm_num [pyInt]
    simp only [get_all_rsi_line, h1, h2]
    rfl

/-- One cycle of the report loop in `main` of `src/04.py`: print the
`get_all_rsi` result when it is truthy (a nonempty string), else the
sentinel failure line. -/
def reportCycleLine (btc eth : Option ℚ) : String :=
  let result := get_all_rsi_line btc eth
  if result ≠ "" then result else "rsi 获取失败"

/-- C3: when neither RSI is available the cycle prints the bare header line
`rsi` — the report string is always nonempty (truthy), so the sentinel
failure branch is dead code and no sentinel line distinct from a report
line is ever emitted. -/
theorem c3_sentinel_never_emitted :
    reportCycleLine none none = "rsi" ∧
    reportCycleLine none none ≠ "rsi 获取失败" := by
  constructor
  · rfl
  · decide

/-- The synthetic fallback series of `get_historical_prices`: `minutes + 5`
samples, sample `i` timestamped `now - (minutes + 4 - i)` minutes (so the
last one is at `now`, spaced one minute apart) and priced
`current * (1 + draw i)` where `draw i` is the i-th Gaussian perturbation
outcome. -/
def syntheticSeries (now : ℚ) (minutes : ℕ) (c : ℚ) (draw : ℕ → ℚ) :
    List Sample :=
  (List.range (minutes + 5)).map
    (fun i : ℕ => ⟨now - ((minutes : ℚ) + 4 - (i : ℚ)) * 60, c * (1 + draw i)⟩)

/-- The primary-source step of `get_historical_prices`: keep a chart item
`(t, p)` iff `(now - t).total_seconds() <= minutes * 60`. -/
def chartFilter (now : ℚ) (minutes : ℕ) (items : List (ℚ × ℚ)) : List Sample :=
  (items.filter (fun it => decide (now - it.1 ≤ (minutes : ℚ) * 60))).map
    (fun it => ⟨it.1, it.2⟩)

/-- The secondary (kline) step: when the primary filter produced fewer than
3 samples, replace them with the kline close prices if the kline call
succeeds (its failure is swallowed by `except: pass`, keeping the primary
samples). -/
def secondaryPrices (prices1 : List Sample)
    (klines : Except Unit (List (ℚ × ℚ))) : List Sample :=
  if prices1.length < 3 then
    match klines with
    | Except.ok ks => ks.map (fun k => ⟨k.1, k.2⟩)
    | Except.error _ => prices1
  else prices1

/-- Whether the control flow of `get_historical_prices` reaches the
synthetic-data fallback: either the primary call raised, or after the
primary filter and the optional kline replacement fewer than 3 samples
remain. -/
def reachesSynthetic (now : ℚ) (minutes : ℕ)
    (chart klines : Except Unit (List (ℚ × ℚ))) : Bool :=
  match chart with
  | Except.error _ => true
  | Except.ok items =>
      decide ((secondaryPrices (chartFilter now minutes items) klines).length < 3)

/-- Model of `get_historical_prices` of `src/04.py` with the outcome of each
external interaction passed explicitly: `chart` is the parsed primary
market-chart response (or its exception), `klines` the parsed secondary
kline response (or its exception), `current` the last-resort current-price
read (or its exception), and `draw` the Gaussian perturbation outcomes.
A raised exception that is never caught is the `Except.error` result. -/
def get_historical_prices (now : ℚ) (minutes : ℕ)
    (chart klines : Except Unit (List (ℚ × ℚ)))
    (current : Except Unit ℚ) (draw : ℕ → ℚ) : Except Unit (List Sample) :=
  match chart with
  | Except.error _ =>
      match current with
      | Except.error _ => Except.error ()
      | Except.ok c => Except.ok (syntheticSeries now minutes c draw)
  | Except.ok items =>
      let prices := secondaryPrices (chartFilter now minutes items) klines
      if prices.length < 3 then
        match current with
        | Except.error _ => Except.error ()
        | Except.ok c => Except.ok (syntheticSeries now minutes c draw)
      else Except.ok prices

theorem syntheticSeries_length (now : ℚ) (minutes : ℕ) (c : ℚ)
    (draw : ℕ → ℚ) : (syntheticSeries now minutes c draw).length = minutes + 5 := by
  simp [syntheticSeries]

/-- C7: acquisition fails only when the synthetic fallback is reached and
even the last-resort current-price read fails; whenever the current-price
read succeeds the function returns a series, and on the synthetic path that
series has at least `minutes + 5` samples. Failures of the primary or
secondary source alone never surface. -/
theorem c7_error_only_on_current_failure (now : ℚ) (minutes : ℕ)
    (chart klines : Except Unit (List (ℚ × ℚ)))
    (current : Except Unit ℚ) (draw : ℕ → ℚ) :
    (get_historical_prices now minutes chart klines current draw = Except.error () ↔
      (reachesSynthetic now minutes chart klines = true ∧
       current = Except.error ())) ∧
    (∀ c : ℚ, current = Except.ok c →
      ∃ l, get_historical_prices now minutes chart klines current draw = Except.ok l ∧
        (reachesSynthetic now minutes chart klines = true →
          minutes + 5 ≤ l.length)) := by
  cases chart with
  | error e =>
      cases e
      cases current with
      | error u =>
          cases u
          refine ⟨by simp [get_historical_prices, reachesSynthetic], ?_⟩
          intro c hc
          exact absurd hc (by simp)
      | ok c =>
          refine ⟨by simp [get_historical_prices, reachesSynthetic], ?_⟩
          intro c' hc'
          obtain rfl : c = c' := by injection hc'
          exact ⟨syntheticSeries now minutes c draw,
            by simp [get_historical_prices],
            fun _ => by rw [syntheticSeries_length]⟩
  | ok items =>
      by_cases h3 : (secondaryPrices (chartFilter now minutes items) klines).length < 3
      · cases current with
        | error u =>
            cases u
            refine ⟨?_, ?_⟩
            · simp [get_historical_prices, reachesSynthetic, h3]
            · intro c hc
              exact absurd hc (by simp)
        | ok c =>
            refine ⟨?_, ?_⟩
            · simp [get_historical_prices, reachesSynthetic, h3]
            · intro c' hc'
              obtain rfl : c = c' := by injection hc'
              exact ⟨syntheticSeries now minutes c draw,
                by simp [get_historical_prices, h3],
                fun _ => by rw [syntheticSeries_length]⟩
      · refine ⟨?_, ?_⟩
        · simp [get_historical_prices, reachesSynthetic, h3]
        · intro c hc
          exact ⟨secondaryPrices (chartFilter now minutes items) klines,
            by simp [get_historical_prices, h3],
            fun hreach => absurd hreach (by simp [reachesSynthetic, h3])⟩

/-- Witness for C7: with both data sources failing and a successful
current-price read, acquisition succeeds with a full synthetic series. -/
theorem c7_error_only_on_current_failure_witness :
    ∃ l, get_historical_prices 600 5 (Except.error ()) (Except.error ())
        (Except.ok 100) (fun _ => 0) = Except.ok l ∧
      (reachesSynthetic 600 5 (Except.error ()) (Except.error ()) = true →
        5 + 5 ≤ l.length) :=
  (c7_error_only_on_current_failure 600 5 (Except.error ()) (Except.error ())
    (Except.ok 100) (fun _ => 0)).2 100 rfl

/-- C6 (counterexample): the Gaussian perturbation is unbounded, so the
synthetic series is not always positive — with both sources short/failing,
a current price of 100 and every draw equal to −2, the returned series
contains the sample `(now, −100)` with a non-positive price. -/
theorem c6_counterexample :
    ∃ l, get_historical_prices 600 5 (Except.ok []) (Except.error ())
        (Except.ok 100) (fun _ => -2) = Except.ok l ∧
      (⟨600, -100⟩ : Sample) ∈ l ∧ ¬ (0 : ℚ) < -100 := by
  refine ⟨syntheticSeries 600 5 100 (fun _ => -2), rfl, ?_, by norm_num⟩
  rw [syntheticSeries]
  refine List.mem_map.mpr ⟨9, by simp, ?_⟩
  show (⟨600 - ((5 : ℚ) + 4 - ((9 : ℕ) : ℚ)) * 60, 100 * (1 + -2)⟩ : Sample) =
    ⟨600, -100⟩
  norm_num

/-- C6 (amended): whenever both non-synthetic sources fall short and the
current-price read succeeds with `c`, the result is exactly the synthetic
series: `minutes + 5` samples, sample `i` timestamped one minute after
sample `i-1` with the last at `now`, priced `c * (1 + draw i)` — positive
for every draw outcome strictly above −1 (rather than for every outcome:
a draw at or below −1 makes the price non-positive). -/
theorem c6_amended_synthetic_shape (now : ℚ) (minutes : ℕ)
    (chart klines : Except Unit (List (ℚ × ℚ))) (c : ℚ) (draw : ℕ → ℚ)
    (hreach : reachesSynthetic now minutes chart klines = true)
    (hc : 0 < c) (hdraw : ∀ i, -1 < draw i) :
    ∃ l, get_historical_prices now minutes chart klines (Except.ok c) draw =
        Except.ok l ∧
      l.length = minutes + 5 ∧
      (∀ s ∈ l, 0 < s.price) ∧
      (∀ i : ℕ, i < minutes + 5 →
        l[i]? = some ⟨now - ((minutes : ℚ) + 4 - (i : ℚ)) * 60, c * (1 + draw i)⟩) := by
  have hl : get_historical_prices now minutes chart klines (Except.ok c) draw =
      Except.ok (syntheticSeries now minutes c draw) := by
    cases chart with
    | error e => rfl
    | ok items =>
        unfold reachesSynthetic at hreach
        simp only [decide_eq_true_eq] at hreach
        simp [get_historical_prices, hreach]
  refine ⟨syntheticSeries now minutes c draw, hl, syntheticSeries_length .., ?_, ?_⟩
  · intro s hs
    rw [syntheticSeries] at hs
    obtain ⟨i, _, rfl⟩ := List.mem_map.mp hs
    have h1 : 0 < 1 + draw i := by linarith [hdraw i]
    exact mul_pos hc h1
  · intro i hi
    rw [syntheticSeries, List.getElem?_map, List.getElem?_range hi]
    rfl

/-- Witness for the amended C6: both sources failing, current price 100,
all draws 0. -/
theorem c6_amended_synthetic_shape_witness :
    ∃ l, get_historical_prices 600 5 (Except.ok []) (Except.error ())
        (Except.ok 100) (fun _ => 0) = Except.ok l ∧
      l.length = 5 + 5 ∧
      (∀ s ∈ l, 0 < s.price) ∧
      (∀ i : ℕ, i < 5 + 5 →
        l[i]? = some ⟨600 - ((5 : ℚ) + 4 - (i : ℚ)) * 60, 100 * (1 + 0)⟩) :=
  c6_amended_synthetic_shape 600 5 (Except.ok []) (Except.error ()) 100
    (fun _ => 0) rfl (by norm_num) (fun _ => by norm_num)

/-- C8 (counterexample): the primary filter keeps a sample 60 seconds in
the future — `now - t = -60 ≤ 300` — although its timestamp exceeds `now`,
contradicting the claimed upper bound `t ≤ now`. -/
theorem c8_counterexample :
    chartFilter 600 5 [(660, 50)] = [⟨660, 50⟩] ∧ ¬ ((660 : ℚ) ≤ 600) := by
  constructor
  · norm_num [chartFilter, List.filter]
  · norm_num

/-- C8 (amended): the primary filter keeps exactly the samples with
`now - t ≤ minutes * 60`, i.e. all samples no older than the lookback
window, with no upper bound on the timestamp: samples later than `now` are
kept as well. -/
theorem c8_amended_filter_membership (now : ℚ) (minutes : ℕ)
    (items : List (ℚ × ℚ)) (t p : ℚ) :
    (⟨t, p⟩ : Sample) ∈ chartFilter now minutes items ↔
      ((t, p) ∈ items ∧ now - t ≤ (minutes : ℚ) * 60) := by
  unfold chartFilter
  rw [List.mem_map]
  constructor
  · rintro ⟨⟨t', p'⟩, hmem, heq⟩
    obtain ⟨h1, h2⟩ := List.mem_filter.mp hmem
    simp only [Sample.mk.injEq] at heq
    obtain ⟨rfl, rfl⟩ := heq
    exact ⟨h1, by simpa using h2⟩
  · rintro ⟨hmem, hcond⟩
    exact ⟨(t, p), List.mem_filter.mpr ⟨hmem, by simpa using hcond⟩, rfl⟩

/-- Witness for the amended C8 at a concrete in-window sample. -/
theorem c8_amended_filter_membership_witness :
    (⟨550, 7⟩ : Sample) ∈ chartFilter 600 5 [(550, 7)] :=
  (c8_amended_filter_membership 600 5 [(550, 7)] 550 7).mpr
    ⟨by simp, by norm_num⟩

/-- One cycle of `main` in `src/03.py`: fetch BTC then ETH independently
(`none` = that fetch failed and was logged), collect the successes, and
print — in this fixed order — the BTC price line (when present) and then
the ETH price line (when present); an empty dict prints nothing. The
returned list holds the printed price lines in order. -/
def snapshotCycle (btc eth : Option ℚ) : List ℚ :=
  if btc.isSome || eth.isSome then
    (match btc with | some p => [p] | none => []) ++
    (match eth with | some p => [p] | none => [])
  else []

/-- C9: a failed fetch only omits that symbol — the other one is still
printed — and the BTC line always precedes the ETH line: the cycle output
is exactly the BTC price (if fetched) followed by the ETH price (if
fetched). -/
theorem c9_snapshot_cycle_output (b e : Option ℚ) :
    snapshotCycle b e = b.toList ++ e.toList ∧
    (∀ pb pe : ℚ, b = some pb → e = some pe → snapshotCycle b e = [pb, pe]) ∧
    (b = none → ∀ pe : ℚ, e = some pe → snapshotCycle b e = [pe]) ∧
    (e = none → ∀ pb : ℚ, b = some pb → snapshotCycle b e = [pb]) := by
  cases b <;> cases e <;> simp [snapshotCycle]

/-- Witness for C9: one failed fetch omits only that symbol; both
successes print BTC before ETH. -/
theorem c9_snapshot_cycle_output_witness :
    snapshotCycle (some 42) (some 7) = [42, 7] ∧
    snapshotCycle none (some 7) = [7] :=
  ⟨(c9_snapshot_cycle_output (some 42) (some 7)).2.1 42 7 rfl rfl,
   (c9_snapshot_cycle_output none (some 7)).2.2.1 rfl 7 rfl⟩

/-- A heap of DataFrame objects, indexed by references; used to make the
object identity of the caller's frame explicit so that mutation (or its
absence) is observable. -/
structure Store where
  frames : List DataFrame

/-- Read the frame an index refers to. -/
def readF (st : Store) (r : ℕ) : DataFrame := st.frames.getD r []

/-- Overwrite the frame an index refers to. -/
def writeF (st : Store) (r : ℕ) (d : DataFrame) : Store := ⟨st.frames.set r d⟩

/-- Allocate a fresh frame object (`df.copy()`), returning its index. -/
def allocF (st : Store) (d : DataFrame) : Store × ℕ :=
  (⟨st.frames ++ [d]⟩, st.frames.length)

/-- State-passing embedding of `calculate_rsi`, statement by statement:
the caller passes a reference `r` to its frame; `df = df.copy()` allocates
a fresh object, the local rebinding `df = df.sort_values("timestamp")`
updates only that fresh object, and the remaining pipeline works on
non-mutating derived Series. The final store is returned alongside the
result so the caller's frame can be inspected afterwards. -/
def calculate_rsi_st (st : Store) (r : ℕ) (period : ℕ) : Store × Option ℚ :=
  if (readF st r).length < period + 1 then (st, none)
  else
    let a := allocF st (readF st r)
    let st1 := a.1
    let rl := a.2
    let st2 := writeF st1 rl (sortByTs (readF st1 rl))
    (st2, rsiFromSorted (readF st2 rl) period)

/-- C10: `calculate_rsi` never mutates its input — after the call the
caller's frame is unchanged (all sorting happened on the copy), and the
result is exactly the pure function of the input frame. -/
theorem c10_input_frame_unchanged (st : Store) (r : ℕ) (period : ℕ)
    (hr : r < st.frames.length) :
    readF (calculate_rsi_st st r period).1 r = readF st r ∧
    (calculate_rsi_st st r period).2 = calculate_rsi (readF st r) period := by
  unfold calculate_rsi_st calculate_rsi
  by_cases h : (readF st r).length < period + 1
  · rw [if_pos h, if_pos h]
    exact ⟨rfl, rfl⟩
  · rw [if_neg h, if_neg h]
    simp only [allocF, writeF, readF]
    constructor
    · show ((st.frames ++ [st.frames.getD r []]).set st.frames.length _).getD r [] =
        st.frames.getD r []
      rw [List.getD_eq_getElem?_getD, List.getD_eq_getElem?_getD,
        List.getElem?_set_ne (by omega), List.getElem?_append, if_pos hr]
    · show rsiFromSorted (((st.frames ++ [st.frames.getD r []]).set st.frames.length
          (sortByTs ((st.frames ++ [st.frames.getD r []]).getD st.frames.length []))).getD
          st.frames.length []) period = _
      have hlen : st.frames.length < (st.frames ++ [st.frames.getD r []]).length := by
        simp
      have hread : (st.frames ++ [st.frames.getD r []]).getD st.frames.length [] =
          st.frames.getD r [] := by
        rw [List.getD_eq_getElem?_getD, List.getElem?_concat_length]
        rfl
      rw [List.getD_eq_getElem?_getD, List.getElem?_set_eq_of_lt _ hlen, hread]
      rfl

/-- Witness for C10 at a concrete one-frame store. -/
theorem c10_input_frame_unchanged_witness :
    readF (calculate_rsi_st ⟨[[⟨0, 1⟩, ⟨1, 2⟩]]⟩ 0 3).1 0 =
      readF ⟨[[⟨0, 1⟩, ⟨1, 2⟩]]⟩ 0 ∧
    (calculate_rsi_st ⟨[[⟨0, 1⟩, ⟨1, 2⟩]]⟩ 0 3).2 =
      calculate_rsi (readF ⟨[[⟨0, 1⟩, ⟨1, 2⟩]]⟩ 0) 3 :=
  c10_input_frame_unchanged ⟨[[⟨0, 1⟩, ⟨1, 2⟩]]⟩ 0 3 (by simp)
